import Mathlib

/-!
# Verification of the traefik-officer-operator core against its specification

This file gives a shallow embedding, in Lean 4, of the core routines of the
traefik-officer-operator repository (Go), and proves or refutes the frozen
claims about them.

Embedding conventions:
* Go strings are Lean `String`s; splitting/joining on single-character
  separators is modelled by executable list-of-char scanners (`goSplitChar`,
  `goJoin`), matching `strings.Split` / `strings.Join`.
* Go `float64` values (request durations, latency averages) are modelled as
  `Rat`.  Floating-point rounding is outside the model; all claims settled
  here depend only on exact arithmetic and comparisons.
* A compiled `*regexp.Regexp` is modelled by its match function
  `String → Bool` (wrapped in `Option` where the Go code checks for `nil`).
  The four hard-coded default normalization regexes of `normalizeURL` are
  embedded as executable scanners with Go `ReplaceAllString` semantics
  (leftmost match, continue after the matched text).
* Prometheus metric vectors are modelled by their declared label lists; the
  `WithLabelValues` cardinality check (which panics in `client_golang` when
  the number of values differs from the number of declared labels) is
  modelled in the `Except` monad.
-/

/-! ## Go string helpers -/

/-- Splits a character list at every occurrence of `sep`
(`strings.Split` for a one-character separator, on the char level). -/
def splitCL (sep : Char) : List Char → List (List Char)
  | [] => [[]]
  | c :: rest =>
    if c = sep then [] :: splitCL sep rest
    else
      match splitCL sep rest with
      | [] => [[c]]
      | h :: t => (c :: h) :: t

/-- `strings.Split s sep` for a one-character separator. -/
def goSplitChar (s : String) (sep : Char) : List String :=
  (splitCL sep s.toList).map (fun l => ⟨l⟩)

/-- `strings.Join parts sep`. -/
def goJoin (sep : String) : List String → String
  | [] => ""
  | [x] => x
  | x :: rest => x ++ sep ++ goJoin sep rest

/-- `strings.SplitN s sep 2` for a one-character separator: at most two
parts, the second keeping any further separators. -/
def goSplitN2 (s : String) (sep : Char) : List String :=
  match goSplitChar s sep with
  | [] => []
  | [x] => [x]
  | x :: rest => [x, goJoin ⟨[sep]⟩ rest]

/-- Whether `pre` is a prefix of `l` (char lists). -/
def isPrefixCL : List Char → List Char → Bool
  | [], _ => true
  | _ :: _, [] => false
  | a :: as, b :: bs => a = b && isPrefixCL as bs

/-- `strings.HasPrefix s pre`. -/
def goHasPrefix (s pre : String) : Bool :=
  isPrefixCL pre.toList s.toList

/-- `strings.HasSuffix s suf`. -/
def goHasSuffix (s suf : String) : Bool :=
  isPrefixCL suf.toList.reverse s.toList.reverse

/-- `strings.Trim s cutset`: removes leading and trailing characters
contained in `cutset`. -/
def goTrim (s : String) (cutset : List Char) : String :=
  ⟨((s.toList.dropWhile (cutset.contains ·)).reverse.dropWhile
      (cutset.contains ·)).reverse⟩

/-! ## Character classes used by the embedded regexes -/

def isDigitCh (c : Char) : Bool := '0' ≤ c && c ≤ '9'

/-- A lowercase hexadecimal digit, the class `[0-9a-f]`. -/
def isHexLowerCh (c : Char) : Bool := isDigitCh c || ('a' ≤ c && c ≤ 'f')

/-- A hexadecimal digit of either case, the class `[0-9a-fA-F]`. -/
def isHexCh (c : Char) : Bool :=
  isDigitCh c || ('a' ≤ c && c ≤ 'f') || ('A' ≤ c && c ≤ 'F')

/-- The class `[a-zA-Z0-9]`. -/
def isAlnumCh (c : Char) : Bool :=
  isDigitCh c || ('a' ≤ c && c ≤ 'z') || ('A' ≤ c && c ≤ 'Z')

/-- The delimiter alternation `(/|\?)` of the default normalization rules
(the `$` alternative is handled by the end of the input). -/
def isDelimCh (c : Char) : Bool := c = '/' || c = '?'

/-! ## Router-name decoder (`parseRouterName`, operator_config.go) -/

/-- Go `isHexString`: whether the whole string matches `^[0-9a-f]{12,}$`. -/
def isHexString (s : String) : Bool :=
  12 ≤ s.length && s.toList.all isHexLowerCh

/-- Splits a router name at its first `@` into the dash-joined prefix part
and the provider (everything after the first `@`), per
`strings.Index(routerName, "@")`. -/
def routerProviderSplit (routerName : String) : String × String :=
  match goSplitChar routerName '@' with
  | [] => (routerName, "")
  | [n] => (n, "")
  | n :: rest => (n, goJoin "@" rest)

/-- The `-`-separated components of the part before the first `@`. -/
def routerPrefixParts (routerName : String) : List String :=
  goSplitChar (routerProviderSplit routerName).1 '-'

/-- The target kind decoded from the provider suffix. -/
def routerTargetKind (routerName : String) : String :=
  match goSplitChar routerName '@' with
  | [] => ""
  | [_] => ""
  | _ :: rest =>
    let provider := goJoin "@" rest
    if provider = "kubernetes" then "Ingress"
    else if provider = "kubernetescrd" then "IngressRoute"
    else ""

/-- The largest index `i` with `lo ≤ i < parts.length` such that
`parts[i]` is a 12+-character lowercase hex string (and, redundantly as in
the source, has length at least 12).  Models the descending `for` loop in
`parseRouterName` that locates the hash suffix. -/
def findLastHexFrom (parts : List String) (lo : Nat) : Option Nat :=
  (List.range parts.length).reverse.find?
    (fun i => lo ≤ i && isHexString (parts.getD i "") && 12 ≤ (parts.getD i "").length)

/-- `parseRouterName` (operator_config.go): decodes a Traefik router name
into `(namespace, targetName, targetKind)`. -/
def parseRouterName (routerName : String) : String × String × String :=
  let targetKind := routerTargetKind routerName
  let parts := routerPrefixParts routerName
  if targetKind = "IngressRoute" then
    if 2 ≤ parts.length then
      let nspace := parts.headD ""
      let tname :=
        match findLastHexFrom parts 1 with
        | some i => goJoin "-" ((parts.drop 1).take (i - 1))
        | none => ""
      (nspace, tname, targetKind)
    else ("", "", targetKind)
  else if targetKind = "Ingress" then
    if 3 ≤ parts.length then
      let nspace := parts.getD 1 ""
      let tname :=
        match findLastHexFrom parts 2 with
        | some i => goJoin "-" ((parts.drop 2).take (i - 2))
        | none => ""
      (nspace, tname, targetKind)
    else ("", "", targetKind)
  else ("", "", targetKind)

/-- `BuildServiceName` (utils.go): joins namespace and name with a
separator, returning the non-empty one when the other is empty. -/
def BuildServiceName (nspace name sep : String) : String :=
  let str1 := nspace.trim
  let str2 := name.trim
  if str1 = "" then str2
  else if str2 = "" then str1
  else str1 ++ sep ++ str2

/-! ## Default URL normalization (`normalizeURL`, utils.go)

The four hard-coded rules are Go `ReplaceAllString` calls.  Each is
embedded as a scanner over the character list with the same semantics:
find the leftmost match, emit the replacement, continue scanning after the
matched text.  Each pattern starts with a literal (`/` or `?`), and the
repeated character class never contains the delimiter that must follow it,
so maximal munch finds exactly the Go (RE2) matches.  The `.` in `\?.*`
does not match a newline in Go; access-log paths come from newline-split
lines and contain none, which the embedding assumes. -/

/-- Scanner for `re1 := /\\d+(/|$|\\?)` replaced by `/{id}$1`.  The `fuel`
argument (instantiated with the input length) only makes the skip past a
match structurally recursive; it never runs out. -/
def replaceIdsFuel : Nat → List Char → List Char
  | 0, l => l
  | _ + 1, [] => []
  | fuel + 1, c :: rest =>
    if c = '/' then
      let ds := rest.takeWhile isDigitCh
      if ds.isEmpty then '/' :: replaceIdsFuel fuel rest
      else
        match rest.drop ds.length with
        | [] => "/{id}".toList
        | d :: _ =>
          if isDelimCh d then
            "/{id}".toList ++ [d] ++ replaceIdsFuel fuel (rest.drop (ds.length + 1))
          else '/' :: replaceIdsFuel fuel rest
    else c :: replaceIdsFuel fuel rest

def replaceIdsCL (l : List Char) : List Char := replaceIdsFuel l.length l

/-- Consumes exactly `n` characters satisfying `p`. -/
def consumeExact (p : Char → Bool) : Nat → List Char → Option (List Char)
  | 0, l => some l
  | _ + 1, [] => none
  | n + 1, c :: rest => if p c then consumeExact p n rest else none

/-- Matches the tail of the UUID pattern
`[0-9a-fA-F]{8}-[0-9a-fA-F]{4}-[0-9a-fA-F]{4}-[0-9a-fA-F]{4}-[0-9a-fA-F]{12}(/|$|\\?)`
right after the leading `/`.  Returns the delimiter character captured by
`$1` (`none` when the match ends at the end of the input) and the number of
characters of the tail that the match consumed. -/
def matchUuidTail (l : List Char) : Option (Option Char × Nat) := do
  let r1 ← consumeExact isHexCh 8 l
  let r2 ← match r1 with | '-' :: t => some t | _ => none
  let r3 ← consumeExact isHexCh 4 r2
  let r4 ← match r3 with | '-' :: t => some t | _ => none
  let r5 ← consumeExact isHexCh 4 r4
  let r6 ← match r5 with | '-' :: t => some t | _ => none
  let r7 ← consumeExact isHexCh 4 r6
  let r8 ← match r7 with | '-' :: t => some t | _ => none
  let r9 ← consumeExact isHexCh 12 r8
  match r9 with
  | [] => some (none, 36)
  | d :: _ => if isDelimCh d then some (some d, 37) else none

/-- Scanner for `re2` (the standard 8-4-4-4-12 UUID segment) replaced by
`/{uuid}$1`. -/
def replaceUuidsFuel : Nat → List Char → List Char
  | 0, l => l
  | _ + 1, [] => []
  | fuel + 1, c :: rest =>
    if c = '/' then
      match matchUuidTail rest with
      | some (d, k) =>
        "/{uuid}".toList ++ (match d with | some ch => [ch] | none => [])
          ++ replaceUuidsFuel fuel (rest.drop k)
      | none => '/' :: replaceUuidsFuel fuel rest
    else c :: replaceUuidsFuel fuel rest

def replaceUuidsCL (l : List Char) : List Char := replaceUuidsFuel l.length l

/-- Scanner for `re3 := /[a-zA-Z0-9]{20,}(/|$|\\?)` replaced by
`/{token}$1`. -/
def replaceTokensFuel : Nat → List Char → List Char
  | 0, l => l
  | _ + 1, [] => []
  | fuel + 1, c :: rest =>
    if c = '/' then
      let run := rest.takeWhile isAlnumCh
      if 20 ≤ run.length then
        match rest.drop run.length with
        | [] => "/{token}".toList
        | d :: _ =>
          if isDelimCh d then
            "/{token}".toList ++ [d] ++ replaceTokensFuel fuel (rest.drop (run.length + 1))
          else '/' :: replaceTokensFuel fuel rest
      else '/' :: replaceTokensFuel fuel rest
    else c :: replaceTokensFuel fuel rest

def replaceTokensCL (l : List Char) : List Char := replaceTokensFuel l.length l

/-- Scanner for `re4 := \?.*` replaced by `?{query_params}`. -/
def replaceQueryCL : List Char → List Char
  | [] => []
  | c :: rest => if c = '?' then "?{query_params}".toList else c :: replaceQueryCL rest

/-- The default normalization of `normalizeURL` (utils.go 393-412): the
four replacement rules applied in source order. -/
def normalizeDefault (path : String) : String :=
  ⟨replaceQueryCL (replaceTokensCL (replaceUuidsCL (replaceIdsCL path.toList)))⟩

/-- A compiled regex as the Go code uses it inside `URLPattern`: a match
function together with a `ReplaceAllString` function. -/
structure CompiledRegex where
  isMatch : String → Bool
  replaceAll : String → String → String

/-- `URLPattern` (metrics file): a per-service URL rewrite rule.  `regex`
is `none` exactly when the Go `Regex` field is `nil` (pattern failed to
compile at config load). -/
structure URLPattern where
  serviceName : String
  pattern : String
  replacement : String
  regex : Option CompiledRegex
  nspace : String

/-- `normalizeURL` (utils.go): first tries the service-specific patterns in
order, returning the first whose service matches and whose regex matches
the path; otherwise applies the default rules. -/
def normalizeURL (serviceName path : String) : List URLPattern → String
  | [] => normalizeDefault path
  | p :: rest =>
    match p.regex with
    | some rx =>
      if BuildServiceName p.nspace p.serviceName "-" = serviceName && rx.isMatch path then
        rx.replaceAll path p.replacement
      else normalizeURL serviceName path rest
    | none => normalizeURL serviceName path rest

/-! ## Per-endpoint statistics (`EndpointStat`, `updateMetrics` in log.go) -/

/-- `EndpointStat` (log.go): cumulative counters for one
`(router, normalized path)` key.  `float64` fields are modelled as `Rat`. -/
structure EndpointStat where
  totalRequests : Int := 0
  totalDuration : Rat := 0
  maxDuration : Rat := 0
  errorCount : Int := 0
  clientErrorCount : Int := 0
  serverErrorCount : Int := 0
deriving Repr, DecidableEq

/-- The `EndpointStat` mutations performed by one `updateMetrics` call
(log.go 277-306): bump request count and duration sums, then the error
counters according to the origin status. -/
def updateStat (stat : EndpointStat) (originStatus : Int) (duration : Rat) : EndpointStat :=
  let stat := { stat with
    totalRequests := stat.totalRequests + 1
    totalDuration := stat.totalDuration + duration
    maxDuration := if stat.maxDuration < duration then duration else stat.maxDuration }
  if 400 ≤ originStatus then
    let stat := { stat with errorCount := stat.errorCount + 1 }
    if 500 ≤ originStatus then { stat with serverErrorCount := stat.serverErrorCount + 1 }
    else { stat with clientErrorCount := stat.clientErrorCount + 1 }
  else stat

/-- The global `endpointStats` map, modelled as an association list (Go map
iteration order is modelled as insertion order). -/
abbrev StatsMap := List (String × EndpointStat)

def lookupStat (stats : StatsMap) (key : String) : Option EndpointStat :=
  (stats.find? (fun kv => kv.1 = key)).map (fun kv => kv.2)

/-- `endpointStats[key]` access of `updateMetrics`: create the zero struct
on first observation, then apply the counter mutations. -/
def updateStatsMap (stats : StatsMap) (key : String) (originStatus : Int)
    (duration : Rat) : StatsMap :=
  match lookupStat stats key with
  | some s =>
    stats.map (fun kv => if kv.1 = key then (kv.1, updateStat s originStatus duration) else kv)
  | none => stats ++ [(key, updateStat {} originStatus duration)]

/-- `traefikLogConfig` (config.go): one parsed access record.  Field names
follow the source; `Duration`/`Overhead` are in milliseconds. -/
structure traefikLogConfig where
  ClientHost : String := ""
  StartUTC : String := ""
  RouterName : String := ""
  RequestMethod : String := ""
  RequestPath : String := ""
  RequestProtocol : String := ""
  OriginStatus : Int := 0
  OriginContentSize : Int := 0
  RequestCount : Int := 0
  Duration : Rat := 0
  Overhead : Rat := 0
deriving Repr, DecidableEq

/-- The `EndpointStat` bookkeeping portion of `updateMetrics` (log.go
250-284): normalize the path, build `key = service ++ ":" ++ endpoint`,
convert the duration to seconds, and update the stats map.  The Prometheus
label emission of the same function is modelled by `updateMetricsExc`
below. -/
def updateMetricsStats (entry : traefikLogConfig) (urlPatterns : List URLPattern)
    (stats : StatsMap) : StatsMap :=
  let service := entry.RouterName
  let duration := entry.Duration / 1000
  let endpoint := normalizeURL service entry.RequestPath urlPatterns
  let key := service ++ ":" ++ endpoint
  updateStatsMap stats key entry.OriginStatus duration

/-! ## Prometheus label cardinality (`updateMetrics` emission, log.go)

Each `promauto.New*Vec` call declares a label list; `WithLabelValues`
panics (in `prometheus/client_golang`) when the number of supplied values
differs from the number of declared labels.  The panic is modelled as
`Except.error`. -/

def totalRequestsLabels : List String :=
  ["request_method", "response_code", "app", "namespace", "target_kind"]
def requestDurationLabels : List String :=
  ["request_method", "response_code", "app", "namespace", "target_kind"]
def endpointRequestsLabels : List String :=
  ["namespace", "ingress", "request_path", "request_method", "response_code"]
def endpointDurationLabels : List String :=
  ["namespace", "ingress", "request_path", "request_method", "response_code"]
def endpointAvgLatencyLabels : List String := ["namespace", "ingress", "request_path"]
def endpointMaxLatencyLabels : List String := ["namespace", "ingress", "request_path"]
def endpointErrorRateLabels : List String := ["namespace", "ingress", "request_path"]
def endpointClientErrorRateLabels : List String := ["namespace", "ingress", "request_path"]
def endpointServerErrorRateLabels : List String := ["namespace", "ingress", "request_path"]

/-- `strconv.Itoa`. -/
def goItoa (n : Int) : String := toString n

/-- The `client_golang` cardinality check performed by `WithLabelValues`:
a mismatch between the declared label count and the supplied value count
panics. -/
def withLabelValues (declaredLabels values : List String) : Except String Unit :=
  if values.length = declaredLabels.length then Except.ok ()
  else Except.error "inconsistent label cardinality"

/-- `topPathsPerService`, modelled as an association list from service to
the list of selected `service:path` keys. -/
abbrev TopPathsMap := List (String × List String)

/-- `topPathsPerService[service][key]`. -/
def isTopPath (tops : TopPathsMap) (service key : String) : Bool :=
  match tops.find? (fun kv => kv.1 = service) with
  | some kv => kv.2.contains key
  | none => false

/-- `updateMetrics` (log.go 250-320) with every metric emission replaced by
its `WithLabelValues` cardinality check, in source order, in the `Except`
monad; the stats-map result is returned on normal termination. -/
def updateMetricsExc (entry : traefikLogConfig) (urlPatterns : List URLPattern)
    (stats : StatsMap) (tops : TopPathsMap) : Except String StatsMap := do
  let method := entry.RequestMethod
  let code := goItoa entry.OriginStatus
  let service := entry.RouterName
  let duration := entry.Duration / 1000
  withLabelValues totalRequestsLabels [method, code, service]
  withLabelValues requestDurationLabels [method, code, service]
  let endpoint := normalizeURL service entry.RequestPath urlPatterns
  let key := service ++ ":" ++ endpoint
  let stats := updateStatsMap stats key entry.OriginStatus duration
  if 400 ≤ entry.OriginStatus then
    withLabelValues endpointErrorRateLabels [service, endpoint]
    if 500 ≤ entry.OriginStatus then
      withLabelValues endpointServerErrorRateLabels [service, endpoint]
    else
      withLabelValues endpointClientErrorRateLabels [service, endpoint]
  if isTopPath tops service key then
    withLabelValues endpointAvgLatencyLabels [service, endpoint]
    withLabelValues endpointMaxLatencyLabels [service, endpoint]
    withLabelValues endpointRequestsLabels [service, endpoint, method, code]
    withLabelValues endpointDurationLabels [service, endpoint, method, code]
  return stats

/-! ## Operator-mode filtering (`ApplyOperatorConfigToLog`, operator_config.go) -/

/-- `RuntimeConfig` (operator_config.go / controller): compiled
configuration of one `UrlPerformance`.  A compiled regex is its match
function; `none` models a `nil` pointer. -/
structure RuntimeConfig where
  Key : String := ""
  Namespace : String := ""
  TargetName : String := ""
  TargetKind : String := ""
  WhitelistRegex : List (Option (String → Bool)) := []
  IgnoredRegex : List (Option (String → Bool)) := []
  MergePaths : List String := []
  URLPatterns : List URLPattern := []
  CollectNTop : Int := 0
  Enabled : Bool := false

/-- The `regex != nil && regex.MatchString(path)` test of the filter
loops. -/
def matchOpt (path : String) : Option (String → Bool) → Bool
  | some rx => rx path
  | none => false

/-- `ApplyOperatorConfigToLog` (operator_config.go 305-336) for a non-nil
config: any ignored-regex match drops the line; otherwise a non-empty
whitelist with no match drops the line; otherwise the line passes. -/
def ApplyOperatorConfigToLog (entry : traefikLogConfig) (runtimeConfig : RuntimeConfig) : Bool :=
  if runtimeConfig.IgnoredRegex.any (matchOpt entry.RequestPath) then false
  else if 0 < runtimeConfig.WhitelistRegex.length &&
      !(runtimeConfig.WhitelistRegex.any (matchOpt entry.RequestPath)) then false
  else true

/-- Scanner for the `\?.*` strip (replacement by the empty string) used by
`MergePathsWithOperatorConfig`. -/
def stripQueryCL : List Char → List Char
  | [] => []
  | c :: rest => if c = '?' then [] else c :: stripQueryCL rest

/-- `MergePathsWithOperatorConfig` (operator_config.go 339-359): when the
path starts with a configured merge prefix, rewrite numeric segments to
`/{id}` and strip the query string. -/
def MergePathsWithOperatorConfig (path : String) (runtimeConfig : RuntimeConfig) : String :=
  if runtimeConfig.MergePaths.isEmpty then path
  else if runtimeConfig.MergePaths.any (fun pre => goHasPrefix path pre) then
    ⟨stripQueryCL (replaceIdsCL path.toList)⟩
  else path

/-- The operator-mode per-line step of `ProcessLogs` (log.go 74-94) after
`ShouldProcessRouter` resolved a non-nil `RuntimeConfig`: apply the filter,
then path merging, then the stats bookkeeping of `updateMetrics` with the
config's URL patterns. -/
def processRecordOperator (entry : traefikLogConfig) (runtimeConfig : RuntimeConfig)
    (stats : StatsMap) : StatsMap :=
  if !(ApplyOperatorConfigToLog entry runtimeConfig) then stats
  else
    let entry := { entry with
      RequestPath := MergePathsWithOperatorConfig entry.RequestPath runtimeConfig }
    updateMetricsStats entry runtimeConfig.URLPatterns stats

/-! ## Top-N recomputation (`updateTopPaths`, utils.go) -/

/-- `pathStat` (local struct of `updateTopPaths`). -/
structure pathStat where
  service : String
  path : String
  avgLatency : Rat
deriving Repr, DecidableEq

/-- `strings.SplitN(key, ":", 2)` with the length-2 requirement of
`updateTopPaths`. -/
def splitServicePath (key : String) : Option (String × String) :=
  match goSplitN2 key ':' with
  | [service, path] => some (service, path)
  | _ => none

/-- Appends one `pathStat` to its service's slice in the grouping list
(`servicePaths[service] = append(...)`). -/
def insertServicePath (acc : List (String × List pathStat)) (service : String)
    (p : pathStat) : List (String × List pathStat) :=
  if acc.any (fun kv => kv.1 = service) then
    acc.map (fun kv => if kv.1 = service then (kv.1, kv.2 ++ [p]) else kv)
  else acc ++ [(service, [p])]

/-- `stat.TotalDuration / float64(stat.TotalRequests)`. -/
def avgLatencyOf (stat : EndpointStat) : Rat :=
  stat.totalDuration / (stat.totalRequests : Rat)

/-- The grouping pass of `updateTopPaths` (utils.go 264-286): every stats
entry with `TotalRequests > 0` whose key splits as `service:path`
contributes its average latency to its service's slice. -/
def servicePathsOf (stats : StatsMap) : List (String × List pathStat) :=
  stats.foldl
    (fun (acc : List (String × List pathStat)) (kv : String × EndpointStat) =>
      if 0 < kv.2.totalRequests then
        match splitServicePath kv.1 with
        | some sp => insertServicePath acc sp.1 ⟨sp.1, sp.2, avgLatencyOf kv.2⟩
        | none => acc
      else acc)
    []

/-- The `sort.Slice` comparison: highest average latency first.  (Go's
`sort.Slice` is an unspecified, unstable sort over a randomly-ordered map
dump; the embedding fixes insertion order and a stable sort, which is one
of its admissible outcomes.) -/
def byAvgDesc (a b : pathStat) : Prop := b.avgLatency ≤ a.avgLatency

instance : DecidableRel byAvgDesc :=
  fun a b => inferInstanceAs (Decidable (b.avgLatency ≤ a.avgLatency))

instance : IsTotal pathStat byAvgDesc := ⟨fun a b => le_total b.avgLatency a.avgLatency⟩

instance : IsTrans pathStat byAvgDesc := ⟨fun _ _ _ h h2 => le_trans h2 h⟩

/-- The per-service selection of `updateTopPaths` (utils.go 295-319): sort
by average latency (highest first) and keep the first
`min limit (number of paths)` keys `service:path`. -/
def topNKeysFor (limit : Nat) (service : String) (paths : List pathStat) : List String :=
  ((paths.insertionSort byAvgDesc).take (min limit paths.length)).map
    (fun p => service ++ ":" ++ p.path)

/-- `updateTopPaths` (utils.go 256-320): recompute `topPathsPerService`
from the stats map, using the single global `topNPaths` limit. -/
def updateTopPaths (stats : StatsMap) (topNPaths : Nat) : TopPathsMap :=
  (servicePathsOf stats).map (fun kv => (kv.1, topNKeysFor topNPaths kv.1 kv.2))

/-- The claim's reading of the top-N recomputation, for comparison: the
limit for each router is that router's configured `collect_n_top` rather
than one global value. -/
def claimedTopPaths (stats : StatsMap) (collectNTopOf : String → Nat) : TopPathsMap :=
  (servicePathsOf stats).map (fun kv => (kv.1, topNKeysFor (collectNTopOf kv.1) kv.1 kv.2))

/-! ## Numeric field parsing (`strconv`, `parseLine` in utils.go) -/

/-- Decimal value of a digit list. -/
def digitsVal (l : List Char) : Nat :=
  l.foldl (fun acc c => acc * 10 + (c.toNat - '0'.toNat)) 0

/-- A non-empty all-digit list, or failure. -/
def digitsToNat (l : List Char) : Option Nat :=
  if l.isEmpty || !(l.all isDigitCh) then none else some (digitsVal l)

/-- `strconv.Atoi`: optional sign followed by one or more digits.  (The
64-bit range error of the Go function is outside the model; the claims
only involve small numbers.) -/
def goAtoi (s : String) : Option Int :=
  match s.toList with
  | '+' :: t => (digitsToNat t).map (fun n => (n : Int))
  | '-' :: t => (digitsToNat t).map (fun n => -(n : Int))
  | t => (digitsToNat t).map (fun n => (n : Int))

/-- `10^e` for a signed exponent. -/
def applyExp (q : Rat) (e : Int) : Rat :=
  if 0 ≤ e then q * (10 : Rat) ^ e.toNat else q / (10 : Rat) ^ (-e).toNat

/-- The optional exponent suffix `(e|E)[+-]?digits` of a Go float literal,
requiring the rest of the string to be exactly that suffix. -/
def parseExpSuffix : List Char → Option Int
  | [] => some 0
  | e :: t =>
    if e = 'e' || e = 'E' then
      match t with
      | '+' :: d => (digitsToNat d).map (fun n => (n : Int))
      | '-' :: d => (digitsToNat d).map (fun n => -(n : Int))
      | d => (digitsToNat d).map (fun n => (n : Int))
    else none

/-- `strconv.ParseFloat(s, 64)` restricted to plain decimal forms
`[+-]?(digits[.digits?]|.digits)(e|E[+-]?digits)?`, evaluated exactly in
`Rat`.  (Binary rounding, `Inf`/`NaN` and hex floats are outside the
model; access-log durations are short decimals.) -/
def goParseFloat (s : String) : Option Rat :=
  let signAndTail : Rat × List Char :=
    match s.toList with
    | '+' :: t => (1, t)
    | '-' :: t => (-1, t)
    | t => (1, t)
  let sign := signAndTail.1
  let l := signAndTail.2
  let ip := l.takeWhile isDigitCh
  let l2 := l.drop ip.length
  let mantRest : Option (Rat × List Char) :=
    match l2 with
    | '.' :: t =>
      let fp := t.takeWhile isDigitCh
      if ip.isEmpty && fp.isEmpty then none
      else some
        ((digitsVal ip : Rat) + (digitsVal fp : Rat) / (10 : Rat) ^ fp.length,
          t.drop fp.length)
    | _ => if ip.isEmpty then none else some ((digitsVal ip : Rat), l2)
  match mantRest with
  | none => none
  | some mr =>
    match parseExpSuffix mr.2 with
    | none => none
    | some e => some (sign * applyExp mr.1 e)

/-- The fourteen submatches of the common-log grammar of `parseLine`
(utils.go 152-167), in source order.  The claims about the numeric-field
stage take the successful grammar match as given. -/
structure Submatch where
  clientHost : String := ""
  clientUsername : String := ""
  startUTC : String := ""
  requestMethod : String := ""
  requestPath : String := ""
  requestProtocol : String := ""
  originStatus : String := ""
  originContentSize : String := ""
  referrer : String := ""
  userAgent : String := ""
  requestCount : String := ""
  frontendName : String := ""
  backendURL : String := ""
  duration : String := ""
deriving Repr, DecidableEq

/-- The field-population stage of `parseLine` (utils.go 182-231): string
fields are copied, the four numeric fields are parsed defensively, each
failure assigning `parseErr`, and the partially populated record is
returned together with the final `parseErr` value. -/
def parseLineFields (m : Submatch) : traefikLogConfig × Option String :=
  let lg : traefikLogConfig :=
    { ClientHost := m.clientHost, StartUTC := m.startUTC,
      RequestMethod := m.requestMethod, RequestPath := m.requestPath,
      RequestProtocol := m.requestProtocol }
  let (lg, parseErr) :=
    match goAtoi m.originStatus with
    | some v => ({ lg with OriginStatus := v }, (none : Option String))
    | none => (lg, some "invalid status code")
  let (lg, parseErr) :=
    match goAtoi m.originContentSize with
    | some v => ({ lg with OriginContentSize := v }, parseErr)
    | none => (lg, some "invalid content size")
  let (lg, parseErr) :=
    match goAtoi m.requestCount with
    | some v => ({ lg with RequestCount := v }, parseErr)
    | none => (lg, some "invalid request count")
  let lg := { lg with RouterName := goTrim m.frontendName ['"'] }
  let latencyStr := goTrim m.duration ['m', 's']
  let (lg, parseErr) :=
    match goParseFloat latencyStr with
    | some v => ({ lg with Duration := v }, parseErr)
    | none => (lg, some "invalid duration")
  (lg, parseErr)

/-! ## Reconciler and config store (urlperformance_controller.go) -/

/-- `Phase` (api/v1alpha1). -/
inductive Phase where
  | pending
  | active
  | error
  | disabled
deriving Repr, DecidableEq

/-- `Condition` (api/v1alpha1) without `LastTransitionTime`: the
preserve-on-equal-status behaviour of `updateCondition` is modelled by
keeping the whole old condition record. -/
structure Condition where
  type : String
  status : Bool
  reason : String
  message : String
deriving Repr, DecidableEq

/-- `updateCondition` (controller 273-299): the first condition of the
given type is replaced only when its status differs (otherwise it is kept,
preserving its transition time); a missing condition is appended. -/
def updateCondition (conds : List Condition) (condType : String) (status : Bool)
    (reason message : String) : List Condition :=
  match conds with
  | [] => [⟨condType, status, reason, message⟩]
  | c :: rest =>
    if c.type = condType then
      if c.status ≠ status then ⟨condType, status, reason, message⟩ :: rest
      else c :: rest
    else c :: updateCondition rest condType status reason message

/-- `TargetReference` (api/v1alpha1); an empty `nspace` models the omitted
optional `namespace` field. -/
structure TargetReference where
  kind : String
  name : String
  nspace : String := ""
deriving Repr, DecidableEq

/-- `URLPattern` of the CRD spec (api/v1alpha1): raw pattern and
replacement strings. -/
structure URLPatternSpec where
  pattern : String
  replacement : String
deriving Repr, DecidableEq

/-- `UrlPerformanceSpec` (api/v1alpha1). -/
structure UrlPerformanceSpec where
  targetRef : TargetReference
  whitelistPathsRegex : List String := []
  ignoredPathsRegex : List String := []
  mergePathsWithExtensions : List String := []
  urlPatterns : List URLPatternSpec := []
  collectNTop : Int := 20
  enabled : Bool := true
deriving Repr, DecidableEq

/-- A `UrlPerformance` object as the reconciler sees it: object metadata,
spec, and the status fields it reads. -/
structure UrlPerformance where
  objNamespace : String
  objName : String
  spec : UrlPerformanceSpec
  generation : Int := 1
  statusPhase : Phase := Phase.pending
  statusConditions : List Condition := []
  statusObservedGeneration : Int := 0

/-- The `ConfigManager.configs` map. -/
abbrev ConfigStore := List (String × RuntimeConfig)

/-- `ConfigManager.UpdateConfig` (controller 69-86): a disabled config
removes its key; an enabled one is stored under its key. -/
def UpdateConfig (store : ConfigStore) (config : RuntimeConfig) : ConfigStore :=
  if !config.Enabled then store.filter (fun kv => kv.1 ≠ config.Key)
  else (store.filter (fun kv => kv.1 ≠ config.Key)) ++ [(config.Key, config)]

/-- `ConfigManager.GetConfig`. -/
def GetConfig (store : ConfigStore) (key : String) : Option RuntimeConfig :=
  (store.find? (fun kv => kv.1 = key)).map (fun kv => kv.2)

/-- The whitelist/ignored compilation loops of `Reconcile` (controller
186-208): all patterns compiled in order, the first failure aborting.
`regexp.Compile` is the oracle `compile`; a compiled regex is stored as
its (non-nil) match function. -/
def compileList (compile : String → Option CompiledRegex) :
    List String → Option (List (Option (String → Bool)))
  | [] => some []
  | p :: rest =>
    match compile p with
    | some rx => (compileList compile rest).map (fun l => some rx.isMatch :: l)
    | none => none

/-- The URL-pattern conversion loop of `Reconcile` (controller 210-222): a
pattern that fails to compile is skipped with a warning (`continue`); the
compiled ones are kept.  (The controller's pattern struct has no service
fields; they are embedded as empty strings.) -/
def compileURLPatterns (compile : String → Option CompiledRegex)
    (ps : List URLPatternSpec) : List URLPattern :=
  ps.filterMap (fun p =>
    (compile p.pattern).map (fun rx =>
      { serviceName := "", pattern := p.pattern, replacement := p.replacement,
        regex := some rx, nspace := "" }))

/-- Result of one reconciliation: the new config store and the status
fields the reconciler wrote back. -/
structure ReconcileResult where
  store : ConfigStore
  phase : Phase
  conditions : List Condition
  observedGeneration : Int

/-- `handleDisabled` (controller 254-271): removes the config under the
key built from the spec's literal target namespace (note: without the
defaulting applied by the enabled path), sets phase `Disabled` and
condition `Ready=False/Disabled`. -/
def handleDisabled (inst : UrlPerformance) (store : ConfigStore) : ReconcileResult :=
  let configKey := inst.spec.targetRef.nspace ++ "-" ++ inst.spec.targetRef.name
  let store2 := UpdateConfig store { Key := configKey, Enabled := false }
  { store := store2
    phase := Phase.disabled
    conditions := updateCondition inst.statusConditions "Ready" false "Disabled"
      "UrlPerformance is disabled"
    observedGeneration := inst.statusObservedGeneration }

/-- `Reconcile` (controller 116-251) for a fetched instance.  `compile` is
the `regexp.Compile` oracle and `targetExists kind namespace name` the
API-server lookup of the target reference.  (The transient `Pending`
phase assigned when `ObservedGeneration == 0` is overwritten on every
path and does not appear in the result.) -/
def Reconcile (inst : UrlPerformance) (store : ConfigStore)
    (compile : String → Option CompiledRegex)
    (targetExists : String → String → String → Bool) : ReconcileResult :=
  if !inst.spec.enabled then handleDisabled inst store
  else
    let targetNamespace :=
      if inst.spec.targetRef.nspace = "" then inst.objNamespace
      else inst.spec.targetRef.nspace
    let tExists :=
      (inst.spec.targetRef.kind = "Ingress" || inst.spec.targetRef.kind = "IngressRoute")
        && targetExists inst.spec.targetRef.kind targetNamespace inst.spec.targetRef.name
    if !tExists then
      { store := store
        phase := Phase.error
        conditions := updateCondition inst.statusConditions "TargetExists" false
          "NotFound" "Target resource not found"
        observedGeneration := inst.statusObservedGeneration }
    else
      let conds1 := updateCondition inst.statusConditions "TargetExists" true
        "Found" "Target resource found"
      let configKey := targetNamespace ++ "-" ++ inst.spec.targetRef.name
      match compileList compile inst.spec.whitelistPathsRegex with
      | none =>
        { store := store
          phase := Phase.error
          conditions := updateCondition conds1 "ConfigGenerated" false "InvalidRegex"
            "Invalid whitelist regex"
          observedGeneration := inst.statusObservedGeneration }
      | some whitelistRegex =>
        match compileList compile inst.spec.ignoredPathsRegex with
        | none =>
          { store := store
            phase := Phase.error
            conditions := updateCondition conds1 "ConfigGenerated" false "InvalidRegex"
              "Invalid ignored regex"
            observedGeneration := inst.statusObservedGeneration }
        | some ignoredRegex =>
          let urlPatterns := compileURLPatterns compile inst.spec.urlPatterns
          let runtimeConfig : RuntimeConfig :=
            { Key := configKey
              Namespace := targetNamespace
              TargetName := inst.spec.targetRef.name
              TargetKind := inst.spec.targetRef.kind
              WhitelistRegex := whitelistRegex
              IgnoredRegex := ignoredRegex
              MergePaths := inst.spec.mergePathsWithExtensions
              URLPatterns := urlPatterns
              CollectNTop := inst.spec.collectNTop
              Enabled := inst.spec.enabled }
          let store2 := UpdateConfig store runtimeConfig
          let conds2 := updateCondition conds1 "ConfigGenerated" true "Generated"
            "Configuration generated successfully"
          let conds3 := updateCondition conds2 "Ready" true "Ready"
            "UrlPerformance is active"
          { store := store2
            phase := Phase.active
            conditions := conds3
            observedGeneration := inst.generation }

/-! ## Claim C1: router decode of the IngressRoute example -/

/-- C1 counterexample: decoding
`mahfil-dev-mahfil-api-server-ingressroute-http-a457d08d5820f79b3e08@kubernetescrd`
does not yield `namespace = "mahfil-dev"` and
`target_name = "mahfil-api-server-ingressroute-http"` as the claim states:
`parseRouterName` splits the prefix on `-` and takes the first component as
the namespace, so a namespace containing a dash is cut after its first
component. -/
theorem router_decode_ingressroute_claim_false :
    parseRouterName
        "mahfil-dev-mahfil-api-server-ingressroute-http-a457d08d5820f79b3e08@kubernetescrd"
      ≠ ("mahfil-dev", "mahfil-api-server-ingressroute-http", "IngressRoute") := by
  decide

/-- C1 (amended): decoding the router name
`mahfil-dev-mahfil-api-server-ingressroute-http-a457d08d5820f79b3e08@kubernetescrd`
yields `namespace = "mahfil"`,
`target_name = "dev-mahfil-api-server-ingressroute-http"` and
`target_kind = IngressRoute`; the concatenation
`namespace ++ "-" ++ target_name` still equals the concatenation of the
claimed values, so the config-key lookup built from the decoded pair is
unaffected by the different split position. -/
theorem router_decode_ingressroute_actual :
    parseRouterName
        "mahfil-dev-mahfil-api-server-ingressroute-http-a457d08d5820f79b3e08@kubernetescrd"
      = ("mahfil", "dev-mahfil-api-server-ingressroute-http", "IngressRoute")
    ∧ "mahfil" ++ "-" ++ "dev-mahfil-api-server-ingressroute-http"
      = "mahfil-dev" ++ "-" ++ "mahfil-api-server-ingressroute-http" := by
  constructor
  · decide
  · decide

/-! ## Claim C9: router names without a hash suffix -/

/-- C9 counterexample: for the Ingress router
`websecure-monitoring-...-kahf-co@kubernetes`, whose prefix has no
`^[0-9a-f]{12,}$` component, the decoder returns an empty `target_name`
but a non-empty `namespace` (`"monitoring"`), refuting the claim that both
fields are empty. -/
theorem parseRouterName_no_hash_namespace_nonempty :
    parseRouterName
        "websecure-monitoring-grafana-operator-grafana-ingress-grafana-non-production-kahf-co@kubernetes"
      = ("monitoring", "", "Ingress")
    ∧ ("monitoring" : String) ≠ "" := by
  constructor
  · decide
  · decide

/-- The hash-locating loop finds nothing when no part is a 12+-char hex
string. -/
theorem findLastHexFrom_eq_none (parts : List String) (lo : Nat)
    (h : ∀ p ∈ parts, isHexString p = false) :
    findLastHexFrom parts lo = none := by
  apply List.find?_eq_none.mpr
  intro i hi
  simp only [List.mem_reverse, List.mem_range] at hi
  have hx : isHexString (parts[i]?.getD "") = false := by
    apply h
    have heq : parts[i]? = some parts[i] := List.getElem?_eq_getElem hi
    rw [heq]
    exact List.getElem_mem hi
  simp [hx]

/-- C9 (amended): for every router name whose prefix contains no
`-`-separated component matching `^[0-9a-f]{12,}$`, the decoder returns an
empty `target_name`; the namespace, however, is still populated from its
positional part (see the counterexample), so only `target_name` is
guaranteed empty. -/
theorem parseRouterName_no_hash_empty_target (routerName : String)
    (h : ∀ p ∈ routerPrefixParts routerName, isHexString p = false) :
    (parseRouterName routerName).2.1 = "" := by
  have h1 := findLastHexFrom_eq_none (routerPrefixParts routerName) 1 h
  have h2 := findLastHexFrom_eq_none (routerPrefixParts routerName) 2 h
  simp only [parseRouterName]
  split_ifs <;> simp [h1, h2]

/-- C9 witness: the amended theorem applied to the hashless grafana
Ingress router. -/
theorem parseRouterName_no_hash_empty_target_witness :
    (parseRouterName
        "websecure-monitoring-grafana-operator-grafana-ingress-grafana-non-production-kahf-co@kubernetes").2.1
      = "" :=
  parseRouterName_no_hash_empty_target
    "websecure-monitoring-grafana-operator-grafana-ingress-grafana-non-production-kahf-co@kubernetes"
    (by decide)

/-! ## Claim C7: default URL normalization -/

/-- C7: when no service-specific URL pattern applies (none with a compiled
regex both targets `serviceName` and matches `path`), `normalizeURL`
applies the four default rules in order — numeric segment to `/{id}$1`,
standard UUID segment to `/{uuid}$1`, 20+-char alphanumeric segment to
`/{token}$1`, query string to `?{query_params}` — and on the concrete path
`/api/users/42/posts/9b8c7a6b-1234-5678-9abc-1234567890ab?x=1` produces
`/api/users/{id}/posts/{uuid}?{query_params}`. -/
theorem normalizeURL_default_rules (serviceName path : String) (urlPatterns : List URLPattern)
    (h : ∀ p ∈ urlPatterns, ∀ rx, p.regex = some rx →
      BuildServiceName p.nspace p.serviceName "-" = serviceName → rx.isMatch path = false) :
    normalizeURL serviceName path urlPatterns = normalizeDefault path
    ∧ normalizeDefault "/api/users/42/posts/9b8c7a6b-1234-5678-9abc-1234567890ab?x=1"
      = "/api/users/{id}/posts/{uuid}?{query_params}" := by
  constructor
  · induction urlPatterns with
    | nil => rfl
    | cons p rest ih =>
      have hrest : ∀ q ∈ rest, ∀ rx, q.regex = some rx →
          BuildServiceName q.nspace q.serviceName "-" = serviceName → rx.isMatch path = false := by
        intro q hq
        exact h q (List.mem_cons_of_mem p hq)
      unfold normalizeURL
      match hrx : p.regex with
      | none => exact ih hrest
      | some rx =>
        have := h p (List.mem_cons_self p rest) rx hrx
        by_cases hsvc : BuildServiceName p.nspace p.serviceName "-" = serviceName
        · simp [hsvc, this hsvc, ih hrest]
        · simp [hsvc, ih hrest]
  · decide

/-- C7 witness: the theorem applied with no URL patterns and the concrete
path of the spec's scenario 4. -/
theorem normalizeURL_default_rules_witness :
    normalizeURL "svc" "/api/users/42/posts/9b8c7a6b-1234-5678-9abc-1234567890ab?x=1" []
      = "/api/users/{id}/posts/{uuid}?{query_params}" := by
  have h := normalizeURL_default_rules "svc"
    "/api/users/42/posts/9b8c7a6b-1234-5678-9abc-1234567890ab?x=1" [] (by simp)
  exact h.1.trans h.2

/-! ## Claim C6: whitelist and ignore filtering in operator mode -/

/-- The concrete config of the spec's scenario 3: whitelist `^/api/`
(matches paths starting with `/api/`), ignore `\.css$` (matches paths
ending in `.css`). -/
def whitelistApiCfg : RuntimeConfig :=
  { Key := "default-api"
    WhitelistRegex := [some (fun s => goHasPrefix s "/api/")]
    IgnoredRegex := [some (fun s => goHasSuffix s ".css")]
    Enabled := true }

def recApiUsers : traefikLogConfig :=
  { RouterName := "r", RequestMethod := "GET", RequestPath := "/api/users",
    OriginStatus := 200, Duration := 12 }

def recAppCss : traefikLogConfig :=
  { RouterName := "r", RequestMethod := "GET", RequestPath := "/static/app.css",
    OriginStatus := 200, Duration := 3 }

def recLogin : traefikLogConfig :=
  { RouterName := "r", RequestMethod := "GET", RequestPath := "/login",
    OriginStatus := 200, Duration := 5 }

/-- C6: for every record and runtime config, the filter accepts exactly
when no ignored regex matches and, should the whitelist be non-empty, some
whitelist regex matches; a dropped line leaves the stats map untouched.
Concretely, with whitelist `^/api/` and ignore `\.css$`, the request
`GET /api/users 200 12ms` is counted (one request at key `r:/api/users`
with 0.012 s recorded) while `GET /static/app.css` and `GET /login` leave
the stats unchanged. -/
theorem operator_filter_semantics :
    (∀ (entry : traefikLogConfig) (cfg : RuntimeConfig),
      ApplyOperatorConfigToLog entry cfg =
        (!(cfg.IgnoredRegex.any (matchOpt entry.RequestPath))
          && (cfg.WhitelistRegex.isEmpty
              || cfg.WhitelistRegex.any (matchOpt entry.RequestPath))))
    ∧ processRecordOperator recApiUsers whitelistApiCfg []
      = [("r:/api/users",
          { totalRequests := 1, totalDuration := 3/250, maxDuration := 3/250,
            errorCount := 0, clientErrorCount := 0, serverErrorCount := 0 })]
    ∧ processRecordOperator recAppCss whitelistApiCfg [] = []
    ∧ processRecordOperator recLogin whitelistApiCfg [] = [] := by
  refine ⟨?_, ?_, ?_, ?_⟩
  · intro entry cfg
    unfold ApplyOperatorConfigToLog
    cases hIgn : cfg.IgnoredRegex.any (matchOpt entry.RequestPath) <;>
      cases hWl : cfg.WhitelistRegex.any (matchOpt entry.RequestPath) <;>
      cases hE : cfg.WhitelistRegex.isEmpty <;>
      simp_all [List.isEmpty_iff, List.length_pos]
  · simp [processRecordOperator, ApplyOperatorConfigToLog, matchOpt, whitelistApiCfg, recApiUsers,
      goHasPrefix, goHasSuffix, isPrefixCL, MergePathsWithOperatorConfig, updateMetricsStats,
      normalizeURL, normalizeDefault, replaceIdsCL, replaceIdsFuel, replaceUuidsCL,
      replaceUuidsFuel, replaceTokensCL, replaceTokensFuel, replaceQueryCL, matchUuidTail,
      consumeExact, updateStatsMap, lookupStat, updateStat]
    norm_num
  · simp [processRecordOperator, ApplyOperatorConfigToLog, matchOpt, whitelistApiCfg, recAppCss,
      goHasSuffix, isPrefixCL]
  · simp [processRecordOperator, ApplyOperatorConfigToLog, matchOpt, whitelistApiCfg, recLogin,
      goHasPrefix, goHasSuffix, isPrefixCL]

/-! ## Claim C8: error-counter invariants of `updateMetrics` -/

/-- The invariant of the claim: errors split exactly into client and
server errors, and never exceed the request count. -/
def statInvariant (s : EndpointStat) : Prop :=
  s.errorCount = s.clientErrorCount + s.serverErrorCount ∧ s.errorCount ≤ s.totalRequests

theorem updateStat_invariant (s : EndpointStat) (code : Int) (dur : Rat)
    (h : statInvariant s) : statInvariant (updateStat s code dur) := by
  unfold statInvariant updateStat at *
  split_ifs <;> simp_all <;> omega

theorem updateStatsMap_invariant (st : StatsMap) (k : String) (code : Int) (dur : Rat)
    (h : ∀ kv ∈ st, statInvariant kv.2) :
    ∀ kv ∈ updateStatsMap st k code dur, statInvariant kv.2 := by
  intro kv hkv
  unfold updateStatsMap at hkv
  cases hl : lookupStat st k with
  | some s =>
    rw [hl] at hkv
    rcases List.mem_map.mp hkv with ⟨kv0, hkv0, rfl⟩
    have hs : statInvariant s := by
      unfold lookupStat at hl
      cases hf : st.find? (fun kv => kv.1 = k) with
      | some kv1 =>
        rw [hf] at hl
        simp at hl
        rw [← hl]
        exact h kv1 (List.mem_of_find?_eq_some hf)
      | none => rw [hf] at hl; simp at hl
    by_cases he : kv0.1 = k
    · simp only [he, if_pos rfl, ite_true]
      exact updateStat_invariant s code dur hs
    · simp only [if_neg he]
      exact h kv0 hkv0
  | none =>
    rw [hl] at hkv
    rcases List.mem_append.mp hkv with h1 | h2
    · exact h kv h1
    · have : kv = (k, updateStat {} code dur) := List.mem_singleton.mp h2
      rw [this]
      exact updateStat_invariant {} code dur (by constructor <;> rfl)

/-- C8: after any sequence of `updateMetrics` calls starting from the
empty stats map, every `EndpointStat` satisfies
`error_count = client_error_count + server_error_count` and
`total_requests ≥ error_count`; moreover a single call changes
`error_count` by 1 exactly when the record's status is at least 400 (else
by 0), and changes `client_error_count + server_error_count` by the same
delta. -/
theorem endpoint_stat_error_invariants :
    (∀ calls : List (String × Int × Rat),
      ∀ kv ∈ calls.foldl (fun st c => updateStatsMap st c.1 c.2.1 c.2.2) ([] : StatsMap),
        kv.2.errorCount = kv.2.clientErrorCount + kv.2.serverErrorCount
          ∧ kv.2.errorCount ≤ kv.2.totalRequests)
    ∧ (∀ (s : EndpointStat) (code : Int) (dur : Rat),
        (updateStat s code dur).errorCount - s.errorCount = (if 400 ≤ code then 1 else 0)
        ∧ ((updateStat s code dur).clientErrorCount + (updateStat s code dur).serverErrorCount)
            - (s.clientErrorCount + s.serverErrorCount)
          = (updateStat s code dur).errorCount - s.errorCount) := by
  constructor
  · have hgen : ∀ (calls : List (String × Int × Rat)) (init : StatsMap),
        (∀ kv ∈ init, statInvariant kv.2) →
        ∀ kv ∈ calls.foldl (fun st c => updateStatsMap st c.1 c.2.1 c.2.2) init,
          statInvariant kv.2 := by
      intro calls
      induction calls with
      | nil => intro init h kv hkv; exact h kv hkv
      | cons c rest ih =>
        intro init h kv hkv
        exact ih (updateStatsMap init c.1 c.2.1 c.2.2)
          (updateStatsMap_invariant init c.1 c.2.1 c.2.2 h) kv hkv
    intro calls kv hkv
    exact hgen calls [] (by intro kv h; cases h) kv hkv
  · intro s code dur
    unfold updateStat
    split_ifs <;> simp

/-- A server error, a client error and a success at the same key. -/
def errorCalls : List (String × Int × Rat) := [("k", 503, 0), ("k", 404, 0), ("k", 200, 0)]

def errorCallsStat : EndpointStat :=
  { totalRequests := 3, errorCount := 2, clientErrorCount := 1, serverErrorCount := 1 }

/-- C8 witness: the invariant instantiated at the stat produced by three
concrete calls. -/
theorem endpoint_stat_error_invariants_witness :
    errorCallsStat.errorCount = errorCallsStat.clientErrorCount + errorCallsStat.serverErrorCount
    ∧ errorCallsStat.errorCount ≤ errorCallsStat.totalRequests :=
  endpoint_stat_error_invariants.1 errorCalls ("k", errorCallsStat) (by
    have hfold : List.foldl (fun st c => updateStatsMap st c.1 c.2.1 c.2.2)
        ([] : StatsMap) errorCalls = [("k", errorCallsStat)] := by
      simp [errorCalls, updateStatsMap, lookupStat, updateStat, errorCallsStat]
    rw [hfold]
    exact List.mem_singleton_self _)

/-! ## Claim C2: top-N recomputation -/

/-- Two paths of router `r` with average latencies 3 s and 2 s. -/
def latencyStatA : EndpointStat := { totalRequests := 1, totalDuration := 3 }
def latencyStatB : EndpointStat := { totalRequests := 1, totalDuration := 2 }
def latencyStats : StatsMap := [("r:A", latencyStatA), ("r:B", latencyStatB)]

/-- A runtime config for router `r` asking for the top 2 paths. -/
def collectTwoCfg : RuntimeConfig := { Key := "r", CollectNTop := 2, Enabled := true }

theorem updateTopPaths_latencyStats_eval : updateTopPaths latencyStats 1 = [("r", ["r:A"])] := by
  simp [updateTopPaths, servicePathsOf, splitServicePath, goSplitN2, goSplitChar, splitCL,
    insertServicePath, topNKeysFor, List.insertionSort, List.orderedInsert, avgLatencyOf,
    byAvgDesc, latencyStats, latencyStatA, latencyStatB, goJoin]
  decide

theorem claimedTopPaths_latencyStats_eval :
    claimedTopPaths latencyStats (fun _ => 2) = [("r", ["r:A", "r:B"])] := by
  simp [claimedTopPaths, servicePathsOf, splitServicePath, goSplitN2, goSplitChar, splitCL,
    insertServicePath, topNKeysFor, List.insertionSort, List.orderedInsert, avgLatencyOf,
    byAvgDesc, latencyStats, latencyStatA, latencyStatB, goJoin]
  norm_num
  decide

/-- C2 counterexample: with two positive-request paths for router `r`, a
per-target `collect_n_top` of 2 and a global `topNPaths` of 1,
`updateTopPaths` projects exactly one path, not the two the claim's
per-target limit demands; `updateTopPaths` takes only the single global
limit and never reads `RuntimeConfig.CollectNTop`. -/
theorem updateTopPaths_ignores_collectNTop :
    collectTwoCfg.CollectNTop = 2
    ∧ updateTopPaths latencyStats 1 = [("r", ["r:A"])]
    ∧ claimedTopPaths latencyStats (fun _ => collectTwoCfg.CollectNTop.toNat)
      = [("r", ["r:A", "r:B"])]
    ∧ updateTopPaths latencyStats 1
      ≠ claimedTopPaths latencyStats (fun _ => collectTwoCfg.CollectNTop.toNat) := by
  have hfun : (fun _ : String => collectTwoCfg.CollectNTop.toNat) = (fun _ : String => 2) := rfl
  refine ⟨rfl, updateTopPaths_latencyStats_eval, ?_, ?_⟩
  · rw [hfun]
    exact claimedTopPaths_latencyStats_eval
  · rw [updateTopPaths_latencyStats_eval, hfun, claimedTopPaths_latencyStats_eval]
    decide

/-- C2 (amended): at a top-N tick, for each router with at least one
positive-request `EndpointStat`, the projected key set is built from
`min N (number of paths)` paths whose average latencies
(`total_duration / total_requests`) dominate those of every non-selected
path of that router — where `N` is the single global `topNPaths` limit of
the legacy config (identical for every router), not the per-target
`collect_n_top`; ties are broken by insertion order in the embedding (the
Go sort is unstable over a randomly-ordered map dump, so the tie order is
not specified by the source). -/
theorem updateTopPaths_selects_highest_avg (stats : StatsMap) (topNPaths : Nat)
    (svc : String) (sel : List String)
    (h : (svc, sel) ∈ updateTopPaths stats topNPaths) :
    ∃ paths chosen dropped,
      (svc, paths) ∈ servicePathsOf stats
      ∧ sel = chosen.map (fun p => svc ++ ":" ++ p.path)
      ∧ chosen.length = min topNPaths paths.length
      ∧ paths.Perm (chosen ++ dropped)
      ∧ ∀ a ∈ chosen, ∀ b ∈ dropped, b.avgLatency ≤ a.avgLatency := by
  rcases List.mem_map.mp h with ⟨kv, hkv, heq⟩
  obtain ⟨h1, h2⟩ : kv.1 = svc ∧ topNKeysFor topNPaths kv.1 kv.2 = sel := by
    constructor
    · exact congrArg Prod.fst heq
    · exact congrArg Prod.snd heq
  subst h1
  refine ⟨kv.2, (kv.2.insertionSort byAvgDesc).take (min topNPaths kv.2.length),
    (kv.2.insertionSort byAvgDesc).drop (min topNPaths kv.2.length), ?_, ?_, ?_, ?_, ?_⟩
  · rw [Prod.mk.eta]
    exact hkv
  · rw [← h2]
    rfl
  · rw [List.length_take]
    have hlen : (kv.2.insertionSort byAvgDesc).length = kv.2.length :=
      (List.perm_insertionSort byAvgDesc kv.2).length_eq
    omega
  · have hperm := (List.perm_insertionSort byAvgDesc kv.2).symm
    rw [List.take_append_drop]
    exact hperm
  · have hsorted : List.Pairwise byAvgDesc (kv.2.insertionSort byAvgDesc) :=
      List.sorted_insertionSort byAvgDesc kv.2
    have hsplit : List.Pairwise byAvgDesc
        ((kv.2.insertionSort byAvgDesc).take (min topNPaths kv.2.length)
          ++ (kv.2.insertionSort byAvgDesc).drop (min topNPaths kv.2.length)) := by
      rw [List.take_append_drop]
      exact hsorted
    intro a ha b hb
    exact (List.pairwise_append.mp hsplit).2.2 a ha b hb

/-- C2 witness: the amended theorem applied to the concrete two-path stats
map with global limit 1. -/
theorem updateTopPaths_selects_highest_avg_witness :
    ∃ paths chosen dropped,
      ("r", paths) ∈ servicePathsOf latencyStats
      ∧ ["r:A"] = chosen.map (fun p => "r" ++ ":" ++ p.path)
      ∧ chosen.length = min 1 paths.length
      ∧ paths.Perm (chosen ++ dropped)
      ∧ ∀ a ∈ chosen, ∀ b ∈ dropped, b.avgLatency ≤ a.avgLatency :=
  updateTopPaths_selects_highest_avg latencyStats 1 "r" ["r:A"] (by
    rw [updateTopPaths_latencyStats_eval]
    exact List.mem_singleton_self _)

/-! ## Claim C3: coarse metric labels and panic freedom of `updateMetrics` -/

/-- C3: `totalRequests` and `requestDuration` are declared with the five
labels `{request_method, response_code, app, namespace, target_kind}`, but
`updateMetrics` calls `WithLabelValues` with only the three values
`(method, code, service)`; under `client_golang` semantics this mismatch
panics, so `updateMetrics` never terminates normally for any parsed
record — refuting both the five-label emission and the no-panic part of
the claim. -/
theorem updateMetrics_label_cardinality_panic (entry : traefikLogConfig)
    (urlPatterns : List URLPattern) (stats : StatsMap) (tops : TopPathsMap) :
    totalRequestsLabels.length = 5
    ∧ [entry.RequestMethod, goItoa entry.OriginStatus, entry.RouterName].length = 3
    ∧ updateMetricsExc entry urlPatterns stats tops
      = Except.error "inconsistent label cardinality" := by
  refine ⟨rfl, rfl, ?_⟩
  simp [updateMetricsExc, withLabelValues, totalRequestsLabels, Bind.bind, Except.bind]

/-! ## Claim C10: defensive numeric-field parsing of `parseLine` -/

/-- C10 (amended): given the fourteen grammar submatches, the
field-population stage of `parseLine` always returns the record with every
string field copied and every parseable numeric field populated (failed
ones keep the zero value), and the accompanying error is the error of the
LATEST failing numeric field in field order — each failure overwrites
`parseErr`, so the first-seen error is kept only when it is the only
one. -/
theorem parseLineFields_returns_partial_record_last_error (m : Submatch) :
    (parseLineFields m).1 =
      { ClientHost := m.clientHost, StartUTC := m.startUTC,
        RequestMethod := m.requestMethod, RequestPath := m.requestPath,
        RequestProtocol := m.requestProtocol,
        OriginStatus := (goAtoi m.originStatus).getD 0,
        OriginContentSize := (goAtoi m.originContentSize).getD 0,
        RequestCount := (goAtoi m.requestCount).getD 0,
        RouterName := goTrim m.frontendName ['"'],
        Duration := (goParseFloat (goTrim m.duration ['m', 's'])).getD 0,
        Overhead := 0 }
    ∧ (parseLineFields m).2 =
        (if (goParseFloat (goTrim m.duration ['m', 's'])).isNone then some "invalid duration"
         else if (goAtoi m.requestCount).isNone then some "invalid request count"
         else if (goAtoi m.originContentSize).isNone then some "invalid content size"
         else if (goAtoi m.originStatus).isNone then some "invalid status code"
         else none) := by
  unfold parseLineFields
  cases h1 : goAtoi m.originStatus <;> cases h2 : goAtoi m.originContentSize <;>
    cases h3 : goAtoi m.requestCount <;>
    cases h4 : goParseFloat (goTrim m.duration ['m', 's']) <;>
    simp [h1, h2, h3, h4]

/-- A grammar match whose status field (`"abc"`) and content-size field
(`"12a"`) both fail to parse while request count and duration succeed. -/
def partialSubmatch : Submatch :=
  { clientHost := "10.0.0.1", clientUsername := "-",
    startUTC := "01/Jan/2026:00:00:00 +0000", requestMethod := "GET",
    requestPath := "/a", requestProtocol := "HTTP/1.1", originStatus := "abc",
    originContentSize := "12a", referrer := "-", userAgent := "\"x\"",
    requestCount := "7", frontendName := "\"r@kubernetescrd\"",
    backendURL := "\"http://10.0.0.2:80\"", duration := "15ms" }

/-- C10 counterexample: with both the status and the content-size fields
malformed, the earliest failing field is the status, yet the returned
error is `invalid content size` — the later failure overwrote the earlier
one, refuting "first-seen".  The record is still partially populated. -/
theorem parseLineFields_error_not_first :
    (parseLineFields partialSubmatch).2 = some "invalid content size"
    ∧ some "invalid content size" ≠ some "invalid status code"
    ∧ (parseLineFields partialSubmatch).1.RequestMethod = "GET"
    ∧ (parseLineFields partialSubmatch).1.RequestCount = 7
    ∧ (parseLineFields partialSubmatch).1.RouterName = "r@kubernetescrd"
    ∧ (parseLineFields partialSubmatch).1.OriginStatus = 0 := by
  refine ⟨by decide, by decide, by decide, by decide, by decide, by decide⟩

/-! ## Claims C4 and C5: reconciler behaviour -/

/-- Every element of an updated condition list is either an old condition
or the newly written one. -/
theorem updateCondition_mem_or (conds : List Condition) (t : String) (s : Bool)
    (r m : String) :
    ∀ c ∈ updateCondition conds t s r m, c ∈ conds ∨ c = ⟨t, s, r, m⟩ := by
  induction conds with
  | nil => intro c hc; simp [updateCondition] at hc; right; exact hc
  | cons c0 rest ih =>
    intro c hc
    unfold updateCondition at hc
    by_cases h0 : c0.type = t
    · rw [if_pos h0] at hc
      by_cases hs : c0.status ≠ s
      · rw [if_pos hs] at hc
        rcases List.mem_cons.mp hc with h | h
        · right; exact h
        · left; exact List.mem_cons_of_mem c0 h
      · rw [if_neg hs] at hc
        left; exact hc
    · rw [if_neg h0] at hc
      rcases List.mem_cons.mp hc with h | h
      · left; rw [h]; exact List.mem_cons_self c0 rest
      · rcases ih c h with h2 | h2
        · left; exact List.mem_cons_of_mem c0 h2
        · right; exact h2

/-- When no existing condition of the type carries the new status, the
newly written condition is present afterwards. -/
theorem updateCondition_mem_of_status_ne (conds : List Condition) (t : String) (s : Bool)
    (r m : String) (h : ∀ c ∈ conds, c.type = t → c.status ≠ s) :
    Condition.mk t s r m ∈ updateCondition conds t s r m := by
  induction conds with
  | nil => simp [updateCondition]
  | cons c0 rest ih =>
    unfold updateCondition
    by_cases h0 : c0.type = t
    · rw [if_pos h0]
      have hne := h c0 (List.mem_cons_self c0 rest) h0
      rw [if_pos hne]
      exact List.mem_cons_self _ _
    · rw [if_neg h0]
      exact List.mem_cons_of_mem c0 (ih (fun c hc => h c (List.mem_cons_of_mem c0 hc)))

/-- C4 (amended): during reconciliation of an enabled `UrlPerformance`
whose target exists, a compile failure among the `whitelist` or `ignored`
regex fields yields phase `Error`, a `ConfigGenerated=False/InvalidRegex`
condition (provided no stale `ConfigGenerated=False` condition with a
different reason pre-exists — this controller only ever writes the reason
`InvalidRegex` with status `False`), and an untouched config store.  A
failing `url_patterns` entry, by contrast, is skipped with a warning and
reconciliation proceeds (see the counterexample). -/
theorem reconcile_invalid_regex_no_store_mutation (inst : UrlPerformance) (store : ConfigStore)
    (compile : String → Option CompiledRegex) (texists : String → String → String → Bool)
    (henabled : inst.spec.enabled = true)
    (htarget : ((inst.spec.targetRef.kind = "Ingress"
          || inst.spec.targetRef.kind = "IngressRoute")
        && texists inst.spec.targetRef.kind
          (if inst.spec.targetRef.nspace = "" then inst.objNamespace
           else inst.spec.targetRef.nspace)
          inst.spec.targetRef.name) = true)
    (hfail : compileList compile inst.spec.whitelistPathsRegex = none
             ∨ compileList compile inst.spec.ignoredPathsRegex = none)
    (hprior : ∀ c ∈ inst.statusConditions, c.type = "ConfigGenerated" → c.status = true) :
    (Reconcile inst store compile texists).store = store
    ∧ (Reconcile inst store compile texists).phase = Phase.error
    ∧ ∃ msg, Condition.mk "ConfigGenerated" false "InvalidRegex" msg
        ∈ (Reconcile inst store compile texists).conditions := by
  have hCG : ∀ c ∈ updateCondition inst.statusConditions "TargetExists" true
      "Found" "Target resource found", c.type = "ConfigGenerated" → c.status ≠ false := by
    intro c hc ht
    rcases updateCondition_mem_or inst.statusConditions "TargetExists" true
      "Found" "Target resource found" c hc with h | h
    · rw [hprior c h ht]
      simp
    · rw [h] at ht
      simp at ht
  unfold Reconcile
  rw [henabled]
  simp only [Bool.not_true, Bool.false_eq_true, if_false, htarget]
  rcases hfail with hw | hi
  · rw [hw]
    exact ⟨rfl, rfl, "Invalid whitelist regex",
      updateCondition_mem_of_status_ne _ _ _ _ _ hCG⟩
  · cases hw : compileList compile inst.spec.whitelistPathsRegex with
    | none =>
      exact ⟨rfl, rfl, "Invalid whitelist regex",
        updateCondition_mem_of_status_ne _ _ _ _ _ hCG⟩
    | some wl =>
      rw [hi]
      exact ⟨rfl, rfl, "Invalid ignored regex",
        updateCondition_mem_of_status_ne _ _ _ _ _ hCG⟩

/-- A `regexp.Compile` oracle failing exactly on the malformed pattern
`[`. -/
def compileOracle : String → Option CompiledRegex :=
  fun p => if p = "[" then none else some ⟨fun _ => false, fun s _ => s⟩

/-- An API server on which every target lookup succeeds. -/
def existsAll : String → String → String → Bool := fun _ _ _ => true

/-- An enabled `UrlPerformance` whose only regex field failing to compile
is a `url_patterns` entry. -/
def urlPatternInst : UrlPerformance :=
  { objNamespace := "prod", objName := "perf",
    spec := { targetRef := { kind := "Ingress", name := "api" },
              urlPatterns := [{ pattern := "[", replacement := "x" }] } }

/-- C4 counterexample: a spec whose only failing regex is a `url_patterns`
entry does NOT produce `ConfigGenerated=False/InvalidRegex` with phase
`Error` and an untouched store, as the claim demands for every failing
regex field: the pattern is dropped, the phase becomes `Active`, a config
IS upserted under `prod-api`, and all three conditions are written with
status `True`. -/
theorem reconcile_url_pattern_failure_not_error :
    compileOracle "[" = none
    ∧ (Reconcile urlPatternInst [] compileOracle existsAll).phase = Phase.active
    ∧ Phase.active ≠ Phase.error
    ∧ (Reconcile urlPatternInst [] compileOracle existsAll).store.length = 1
    ∧ (GetConfig (Reconcile urlPatternInst [] compileOracle existsAll).store "prod-api").isSome
      = true
    ∧ (Reconcile urlPatternInst [] compileOracle existsAll).conditions
      = [⟨"TargetExists", true, "Found", "Target resource found"⟩,
         ⟨"ConfigGenerated", true, "Generated", "Configuration generated successfully"⟩,
         ⟨"Ready", true, "Ready", "UrlPerformance is active"⟩] := by
  refine ⟨rfl, rfl, by decide, rfl, rfl, rfl⟩

/-- An enabled `UrlPerformance` with an invalid whitelist regex. -/
def invalidWhitelistInst : UrlPerformance :=
  { objNamespace := "prod", objName := "perf",
    spec := { targetRef := { kind := "Ingress", name := "api" },
              whitelistPathsRegex := ["["] } }

/-- C4 witness: the amended theorem applied to a concrete instance with an
invalid whitelist regex and an empty store. -/
theorem reconcile_invalid_regex_no_store_mutation_witness :
    (Reconcile invalidWhitelistInst [] compileOracle existsAll).store = []
    ∧ (Reconcile invalidWhitelistInst [] compileOracle existsAll).phase = Phase.error
    ∧ ∃ msg, Condition.mk "ConfigGenerated" false "InvalidRegex" msg
        ∈ (Reconcile invalidWhitelistInst [] compileOracle existsAll).conditions :=
  reconcile_invalid_regex_no_store_mutation invalidWhitelistInst [] compileOracle existsAll
    rfl rfl (Or.inl rfl) (by intro c hc; simp [invalidWhitelistInst] at hc)

/-- A disabled `UrlPerformance` in namespace `prod` whose spec omits the
target namespace. -/
def disabledInst : UrlPerformance :=
  { objNamespace := "prod", objName := "perf",
    spec := { targetRef := { kind := "Ingress", name := "api" }, enabled := false } }

/-- The config previously upserted for the same object by an enabled
reconciliation (key built with the namespace default applied). -/
def priorCfg : RuntimeConfig :=
  { Key := "prod-api", Namespace := "prod", TargetName := "api", TargetKind := "Ingress",
    CollectNTop := 20, Enabled := true }

/-- C5: reconciling a disabled `UrlPerformance` whose spec omits
`target_namespace` sets phase `Disabled` and `Ready=False/Disabled` as
claimed, but does NOT remove the store entry under
`"<object namespace>-<target_name>"`: `handleDisabled` builds the removal
key from the literal (empty) spec namespace, yielding `-api` instead of
`prod-api`, so the previously upserted config is still retrievable. -/
theorem handleDisabled_key_mismatch_leaves_config :
    disabledInst.spec.enabled = false
    ∧ disabledInst.spec.targetRef.nspace = ""
    ∧ disabledInst.objNamespace ++ "-" ++ disabledInst.spec.targetRef.name = "prod-api"
    ∧ (Reconcile disabledInst [("prod-api", priorCfg)] compileOracle existsAll).phase
      = Phase.disabled
    ∧ Condition.mk "Ready" false "Disabled" "UrlPerformance is disabled"
        ∈ (Reconcile disabledInst [("prod-api", priorCfg)] compileOracle existsAll).conditions
    ∧ GetConfig
        (Reconcile disabledInst [("prod-api", priorCfg)] compileOracle existsAll).store
        "prod-api"
      = some priorCfg := by
  refine ⟨rfl, rfl, by decide, rfl, ?_, rfl⟩
  exact List.mem_singleton_self _
